import Mathlib

/-!
Verification development for the forking time-traveling interpreter
(`interpreter.py`, `kernel_message.py`, `driver_message.py`).

The program is a Driver process orchestrating a current Kernel process plus a
stack of suspended snapshot Kernels.  `Driver.exec_cell` first asks the Kernel
to checkpoint (the Kernel forks; the child installs a SIGCONT handler and
pauses; the parent replies with the child's pid, which the Driver appends to
`checkpoint_pids`) and then sends the cell for execution.  `Driver.undo` pops
the latest snapshot pid, shuts the current Kernel down, sends SIGCONT to the
snapshot and treats it as the new current Kernel.

We embed the code as a deterministic big-step transition system over an
abstract environment type `Env` (standing for the Kernel's `local_env` and
`global_env` dictionaries together) and an abstract cell-execution collaborator
`applyCell : String → Env → Option Env` (standing for Python's `exec`, which
either mutates the environment or raises).  OS pids are modelled as naturals
handed out by a monotone counter: this is sound because every pid the Driver
retains belongs to a process that is either alive (suspended snapshot) or an
unreaped zombie, so the OS cannot recycle it during the session.  A `none`
result of a Driver-level operation means the session is irrecoverably stuck
(the Driver blocked forever in `recv()` or the Kernel crashed).
-/

namespace ForkingInterpreters

/-- Requests Driver→Kernel, from `kernel_message.py`: `CellInput(cell)`,
`Checkpoint`, `Shutdown`. -/
inductive KernelMessage where
  | CellInput (cell : String)
  | Checkpoint
  | Shutdown
deriving DecidableEq, Repr

/-- Static flag of `kernel_message.py`: `CellInput.has_response` returns
`False`, `Checkpoint.has_response` and `Shutdown.has_response` return `True`.
No caller in `interpreter.py` ever consults this flag. -/
def has_response : KernelMessage → Bool
  | .CellInput _ => false
  | .Checkpoint => true
  | .Shutdown => true

/-- Responses Kernel→Driver.  `CheckpointCreated` is declared in
`src/driver_message.py`; `interpreter.py` additionally references
`driver_message.Ack` and `driver_message.CheckpointRestored`, whose
declarations are not under `src/`.  `Ack` and `CheckpointRestored` are
modelled from the spec's response list (`Acknowledged`, `CheckpointRestored`).
`ShutdownAcknowledged` is modelled from the spec only: the spec lists it as a
distinct response kind, but no code in `src/` ever constructs or checks it. -/
inductive DriverMessage where
  | Ack
  | CheckpointCreated (checkpoint_pid : Nat)
  | CheckpointRestored
  | ShutdownAcknowledged
deriving DecidableEq, Repr

/-- Control outcome of one iteration of `Kernel.run`'s dispatch loop:
loop again, exit the process via `sys.exit(0)`, or die with an unhandled
Python exception. -/
inductive KAction where
  | continueLoop
  | exitZero
  | crash
deriving DecidableEq, Repr

/-- One iteration of `Kernel.run` in the current (parent-side) Kernel, given
the message received from the pipe: the new environment, the list of messages
sent back on the pipe during this iteration, and the control outcome.
`CellInput`: `Kernel.next` runs `exec` (modelled by `applyCell`); on success an
`Ack` is sent; on an exception nothing is sent and the Kernel process dies
(`Kernel.next` has no error handling).  `Checkpoint`: the parent side of
`Kernel.checkpoint` returns the freshly forked child's pid (`fresh`) and
replies `CheckpointCreated(fresh)`.  `Shutdown`: reply `Ack`, then
`sys.exit(0)`. -/
def kernelHandle {Env : Type} (applyCell : String → Env → Option Env)
    (fresh : Nat) (msg : KernelMessage) (env : Env) :
    Env × List DriverMessage × KAction :=
  match msg with
  | .CellInput c =>
    match applyCell c env with
    | some e2 => (e2, [.Ack], .continueLoop)
    | none => (env, [], .crash)
  | .Checkpoint => (env, [.CheckpointCreated fresh], .continueLoop)
  | .Shutdown => (env, [.Ack], .exitZero)

/-- Driver side: `KernelClient.send_message` sends `msg` and then performs one
unconditional blocking `recv()` (it never consults `has_response`).  If the
Kernel's dispatch of `msg` sends nothing back, the `recv()` blocks forever:
result `none`. -/
def send_message {Env : Type} (applyCell : String → Env → Option Env)
    (fresh : Nat) (msg : KernelMessage) (env : Env) :
    Option (Env × DriverMessage × KAction) :=
  match kernelHandle applyCell fresh msg env with
  | (env2, r :: _, act) => some (env2, r, act)
  | (_, [], _) => none

/-- Lifecycle state of one OS process of the session.  `running`: in the
`Kernel.run` receive-dispatch loop.  `suspended`: a snapshot parked in
`signal.pause()`.  `exited`: terminated via `sys.exit(0)` after a `Shutdown`,
not yet reaped (a zombie).  `killed`: terminated by SIGKILL during
`Driver.shutdown`, not yet reaped (a zombie).  `reaped`: resources reclaimed
via `waitpid`/`join`; no code path in `interpreter.py` ever performs this
transition, so no operation below produces it. -/
inductive PStatus where
  | running
  | suspended
  | exited
  | killed
  | reaped
deriving DecidableEq, Repr

/-- Only a Kernel inside its `run` loop executes `recv()` on the pipe; a
suspended snapshot is blocked in `signal.pause()` and a zombie executes
nothing (source docstring: "At any time, only the current Kernel process will
read from the Kernel end of a Pipe ... since all snapshots are asleep"). -/
def readsChannel : PStatus → Bool
  | .running => true
  | _ => false

/-- One Kernel process: its environment copy and lifecycle state. -/
structure Proc (Env : Type) where
  env : Env
  status : PStatus
deriving DecidableEq, Repr

/-- Session state owned by the Driver: the table of all Kernel processes
created so far (keyed by pid), `Driver.checkpoint_pids` (append/pop at the
end, as for a Python list), `KernelClient.kernel_pid` (the current Kernel),
and the fresh-pid counter. -/
structure SysState (Env : Type) where
  procs : List (Nat × Proc Env)
  checkpoint_pids : List Nat
  current : Nat
  nextPid : Nat
deriving DecidableEq, Repr

/-- Look a pid up in the process table (first match). -/
def lookupProc {Env : Type} (pid : Nat) : List (Nat × Proc Env) → Option (Proc Env)
  | [] => none
  | (q, p) :: ps => if q = pid then some p else lookupProc pid ps

/-- Apply `f` to the process stored under `pid` (all matches). -/
def updateProc {Env : Type} (pid : Nat) (f : Proc Env → Proc Env) :
    List (Nat × Proc Env) → List (Nat × Proc Env)
  | [] => []
  | (q, p) :: ps =>
    if q = pid then (q, f p) :: updateProc pid f ps else (q, p) :: updateProc pid f ps

/-- Pids present in a process table. -/
def pidsOf {Env : Type} (ps : List (Nat × Proc Env)) : List Nat :=
  ps.map Prod.fst

/-- Overwrite a process's lifecycle state. -/
def setStatus {Env : Type} (st : PStatus) (p : Proc Env) : Proc Env :=
  { p with status := st }

/-- Overwrite a process's environment. -/
def setEnv {Env : Type} (e : Env) (p : Proc Env) : Proc Env :=
  { p with env := e }

/-- Status of the process registered under pid `q`, if any. -/
def statusOf {Env : Type} (s : SysState Env) (q : Nat) : Option PStatus :=
  (lookupProc q s.procs).map Proc.status

/-- Environment of the current Kernel, if it exists in the table. -/
def envOf {Env : Type} (s : SysState Env) : Option Env :=
  (lookupProc s.current s.procs).map Proc.env

/-- Session state right after `Driver.__init__`: one Kernel process (pid 1)
running with the initial environment, an empty `checkpoint_pids`. -/
def initState {Env : Type} (e0 : Env) : SysState Env :=
  { procs := [(1, { env := e0, status := PStatus.running })],
    checkpoint_pids := [],
    current := 1,
    nextPid := 2 }

/-- Big-step model of `Driver.exec_cell(cell)`.  The Driver sends `Checkpoint`
and blocks for the reply: the current Kernel must therefore be running (a dead
or suspended Kernel never answers and the Driver blocks forever: `none`).  The
Kernel forks; the child (fresh pid `s.nextPid`) keeps an exact copy of the
environment and parks in `signal.pause()` (`suspended`); the parent replies
`CheckpointCreated(child)` and the Driver appends the pid to
`checkpoint_pids`.  The Driver then sends `CellInput(cell)` and blocks for the
`Ack`: if `exec` raises, the Kernel dies without replying and the Driver
blocks forever (`none`). -/
def exec_cell {Env : Type} (applyCell : String → Env → Option Env)
    (cell : String) (s : SysState Env) : Option (SysState Env) :=
  match lookupProc s.current s.procs with
  | none => none
  | some p =>
    if p.status = PStatus.running then
      match applyCell cell p.env with
      | some e2 =>
        some { procs := updateProc s.current (setEnv e2)
                 (s.procs ++ [(s.nextPid, { env := p.env, status := PStatus.suspended })]),
               checkpoint_pids := s.checkpoint_pids ++ [s.nextPid],
               current := s.current,
               nextPid := s.nextPid + 1 }
      | none => none
    else none

/-- Python exceptions relevant to `Driver.undo`.  `nameErrorUndefined n`: the
NameError Python raises when evaluating an undefined name `n` (in
`Driver.undo`, `raise Error("Nothing to undo.")` evaluates the name `Error`,
which is defined nowhere, so a NameError is raised instead of the intended
error).  `emptyHistory` is modelled from the spec: the `EmptyHistory` error
the spec says `undo()` fails with; no code in `src/` defines it. -/
inductive PyErr where
  | nameErrorUndefined (name : String)
  | emptyHistory (msg : String)
deriving DecidableEq, Repr

/-- Result of `Driver.undo()`: an exception raised before any state mutation
(the Driver's fields still hold `s`), the Driver blocked forever, or success
with the new session state. -/
inductive UndoRes (Env : Type) where
  | raised (e : PyErr) (s : SysState Env)
  | hang
  | ok (s : SysState Env)
deriving DecidableEq, Repr

/-- Big-step model of `Driver.undo()`.  With an empty `checkpoint_pids` the
method executes `raise Error("Nothing to undo.")`; `Error` is an undefined
name, so a NameError is raised, before any state is touched.  Otherwise the
last pid is popped; `Shutdown` is sent to the current Kernel and its `Ack`
awaited (the current Kernel must be running, else the Driver blocks forever);
the current Kernel exits and is never reaped (zombie); `kernel_client
.kernel_pid` is reassigned to the popped pid; SIGCONT is delivered, waking the
snapshot out of `signal.pause()` (it must be suspended, else the Driver's
final `recv()` blocks forever); the Driver blocks until `CheckpointRestored`
arrives.  This big-step assumes the snapshot has reached `signal.pause()`
before the SIGCONT is delivered; the lost-wakeup hazard when it has not is
modelled separately below (`ChildSim`). -/
def undo {Env : Type} (s : SysState Env) : UndoRes Env :=
  match s.checkpoint_pids.getLast? with
  | none => .raised (.nameErrorUndefined "Error") s
  | some cp =>
    match lookupProc s.current s.procs, lookupProc cp s.procs with
    | some pcur, some psnap =>
      if pcur.status = PStatus.running ∧ psnap.status = PStatus.suspended then
        .ok { procs := updateProc cp (setStatus PStatus.running)
                        (updateProc s.current (setStatus PStatus.exited) s.procs),
              checkpoint_pids := s.checkpoint_pids.dropLast,
              current := cp,
              nextPid := s.nextPid }
      else .hang
    | _, _ => .hang

/-- SIGKILL every listed pid in the process table (the kill loop of
`Driver.shutdown`). -/
def killAll {Env : Type} (pids : List Nat) (ps : List (Nat × Proc Env)) :
    List (Nat × Proc Env) :=
  pids.foldl (fun a cp => updateProc cp (setStatus PStatus.killed) a) ps

/-- Big-step model of `Driver.shutdown()`: SIGKILL every pid in
`checkpoint_pids` (the list itself is not cleared), then send `Shutdown` to
the current Kernel and block for its `Ack` (the current Kernel must be
running, else the Driver blocks forever).  No killed or exited process is ever
reaped. -/
def shutdownDriver {Env : Type} (s : SysState Env) : Option (SysState Env) :=
  match lookupProc s.current (killAll s.checkpoint_pids s.procs) with
  | some p =>
    if p.status = PStatus.running then
      some { s with procs := updateProc s.current (setStatus PStatus.exited)
                      (killAll s.checkpoint_pids s.procs) }
    else none
  | none => none

/-- Operations the front end can issue against the Driver. -/
inductive Op where
  | submit (cell : String)
  | undoOp
  | shutdownOp
deriving DecidableEq, Repr

/-- One front-end operation.  A raised exception from `undo` propagates out of
`main`'s loop uncaught and kills the whole interpreter, so like a hang it ends
the session (`none`); the state it left behind is the unchanged input state. -/
def step {Env : Type} (applyCell : String → Env → Option Env)
    (s : SysState Env) : Op → Option (SysState Env)
  | .submit c => exec_cell applyCell c s
  | .undoOp =>
    match undo s with
    | .ok s2 => some s2
    | _ => none
  | .shutdownOp => shutdownDriver s

/-- Run a sequence of front-end operations from a state. -/
def runOps {Env : Type} (applyCell : String → Env → Option Env) :
    List Op → SysState Env → Option (SysState Env)
  | [], s => some s
  | op :: ops, s =>
    match step applyCell s op with
    | some s2 => runOps applyCell ops s2
    | none => none

/-- Number of `submit` operations in a sequence. -/
def countSubmits : List Op → Nat
  | [] => 0
  | .submit _ :: ops => countSubmits ops + 1
  | _ :: ops => countSubmits ops

/-- Number of `undo` operations in a sequence. -/
def countUndos : List Op → Nat
  | [] => 0
  | .undoOp :: ops => countUndos ops + 1
  | _ :: ops => countUndos ops

/-- At most one entry of the process table is in `running` state. -/
def atMostOneRunning {Env : Type} (s : SysState Env) : Prop :=
  (s.procs.filter (fun e => e.2.status == PStatus.running)).length ≤ 1

/-- Every pid on `checkpoint_pids` is registered and suspended. -/
def stackSuspended {Env : Type} (s : SysState Env) : Prop :=
  ∀ cp ∈ s.checkpoint_pids, statusOf s cp = some PStatus.suspended

instance {Env : Type} (s : SysState Env) : Decidable (stackSuspended s) := by
  unfold stackSuspended
  infer_instance

/-- Structural invariant of a live session (no shutdown yet): pids in the
process table are distinct and below the fresh-pid counter; the current Kernel
is registered and is the only running process; every pid on `checkpoint_pids`
is a registered suspended snapshot; the stack holds no duplicates and only
already-allocated pids. -/
structure Inv {Env : Type} (s : SysState Env) : Prop where
  keys_nodup : (pidsOf s.procs).Nodup
  keys_lt : ∀ q ∈ pidsOf s.procs, q < s.nextPid
  current_run : ∃ p, lookupProc s.current s.procs = some p ∧ p.status = PStatus.running
  only_current : ∀ q p, lookupProc q s.procs = some p → p.status = PStatus.running →
    q = s.current
  stack_susp : ∀ cp ∈ s.checkpoint_pids, ∃ p, lookupProc cp s.procs = some p ∧
    p.status = PStatus.suspended
  stack_nodup : s.checkpoint_pids.Nodup
  stack_lt : ∀ cp ∈ s.checkpoint_pids, cp < s.nextPid

/-- State of a session after a completed `shutdown()`: pids are still
distinct and no process is running any more. -/
def NoRun {Env : Type} (s : SysState Env) : Prop :=
  (pidsOf s.procs).Nodup ∧
  ∀ q p, lookupProc q s.procs = some p → p.status ≠ PStatus.running

/-- The special REPL token of `interpreter.py` (`_UNDO_REPL_TOKEN`). -/
def undoReplToken : String := "!!"

/-- What `main`'s loop does with one line. -/
inductive ReplAction where
  | undoCmd
  | execCmd (cell : String)
deriving DecidableEq, Repr

/-- Model of Python's `str.strip()` with no arguments: remove leading and
trailing whitespace characters. -/
def pyStrip (s : String) : String :=
  String.mk (((s.data.dropWhile Char.isWhitespace).reverse.dropWhile
    Char.isWhitespace).reverse)

/-- Routing of one input line by `main`: the line is stripped
(`input(">> ").strip()`); if the result equals `_UNDO_REPL_TOKEN` the Driver's
`undo()` is invoked, otherwise the stripped text is passed to `exec_cell`. -/
def replStep (line : String) : ReplAction :=
  let cell := pyStrip line
  if cell == undoReplToken then .undoCmd else .execCmd cell

/-- Observable progress of the forked child of `Kernel.checkpoint` between
`fork()` and its resumption: whether `signal.signal(SIGCONT, noop)` has run,
whether the child is blocked inside `signal.pause()`, and whether it has been
woken by a SIGCONT.  The source masks no signals before forking, so the single
SIGCONT that `Driver.undo` sends can arrive at any point of this progress. -/
structure ChildSim where
  handlerInstalled : Bool
  inPauseWait : Bool
  woken : Bool
deriving DecidableEq, Repr

/-- POSIX delivery of one SIGCONT to the child.  If the child is blocked in
`pause()` with the handler installed, the handler runs and `pause()` returns:
the child wakes.  In every other situation the signal is consumed with no
recorded effect: before `signal.signal` runs, the default SIGCONT disposition
on a not-stopped process discards it; after the handler is installed but
before `pause()`, the no-op handler runs immediately and nothing marks the
delivery, so a later `pause()` still blocks. -/
def deliverSigcont (c : ChildSim) : ChildSim :=
  if c.handlerInstalled && c.inPauseWait then
    { c with inPauseWait := false, woken := true }
  else c

/-- Events of the child-side checkpoint path interleaved with signal
delivery: the child's own two steps (`signal.signal(SIGCONT, noop)`, then
`signal.pause()`) and the arrival of the Driver's SIGCONT. -/
inductive ChildEv where
  | installHandler
  | enterPause
  | sigcont
deriving DecidableEq, Repr

/-- Execute an interleaving of child steps and signal deliveries. -/
def runChild : List ChildEv → ChildSim → ChildSim
  | [], c => c
  | .installHandler :: es, c => runChild es { c with handlerInstalled := true }
  | .enterPause :: es, c => runChild es { c with inPauseWait := true }
  | .sigcont :: es, c => runChild es (deliverSigcont c)

/-- Child state at `fork()` time. -/
def childStart : ChildSim :=
  { handlerInstalled := false, inPauseWait := false, woken := false }

/-- After the interleaving, the child is still blocked in `signal.pause()`
with no further signal ever coming: it sleeps forever. -/
def childBlockedForever (evs : List ChildEv) : Bool :=
  let c := runChild evs childStart
  c.inPauseWait && !c.woken

/-- Concrete cell collaborator for witnesses: every cell execution succeeds
and bumps a counter environment. -/
def applySucc : String → Nat → Option Nat := fun _ n => some (n + 1)

/-- Concrete cell collaborator whose execution always raises. -/
def applyFails : String → Nat → Option Nat := fun _ _ => none

/-- Concrete session start state over the counter environment. -/
def st0 : SysState Nat := initState 0

/-- Session state after `exec_cell("x = 1")` followed by `undo()`: the old
current Kernel (pid 1) has exited via `sys.exit(0)` and was never reaped; the
snapshot (pid 2) is the new running current Kernel with the pre-submit
environment. -/
def stAfterUndo : SysState Nat :=
  { procs := [(1, { env := 1, status := PStatus.exited }),
              (2, { env := 0, status := PStatus.running })],
    checkpoint_pids := [],
    current := 2,
    nextPid := 3 }

/-- Session state after `exec_cell("x = 1")` followed by `shutdown()`: the
snapshot (pid 2) was SIGKILLed but `checkpoint_pids` still lists it; the
current Kernel (pid 1) exited; nobody was reaped. -/
def stAfterShut : SysState Nat :=
  { procs := [(1, { env := 1, status := PStatus.exited }),
              (2, { env := 0, status := PStatus.killed })],
    checkpoint_pids := [2],
    current := 1,
    nextPid := 3 }

/-- Session state after two `exec_cell` calls and one `undo()` from `st0`:
the second submit's snapshot (pid 3) was resumed and is the current Kernel;
the first submit's snapshot (pid 2) is still on the stack. -/
def stAfterTwoSubmitsOneUndo : SysState Nat :=
  { procs := [(1, { env := 2, status := PStatus.exited }),
              (2, { env := 0, status := PStatus.suspended }),
              (3, { env := 1, status := PStatus.running })],
    checkpoint_pids := [2],
    current := 3,
    nextPid := 4 }

/-- Session state after two `exec_cell` calls from `st0`. -/
def stTwoSubmits : SysState Nat :=
  { procs := [(1, { env := 2, status := PStatus.running }),
              (2, { env := 0, status := PStatus.suspended }),
              (3, { env := 1, status := PStatus.suspended })],
    checkpoint_pids := [2, 3],
    current := 1,
    nextPid := 4 }

theorem lookupProc_update_self {Env : Type} (pid : Nat) (f : Proc Env → Proc Env) :
    ∀ ps : List (Nat × Proc Env),
      lookupProc pid (updateProc pid f ps) = (lookupProc pid ps).map f
  | [] => rfl
  | (q, p) :: ps => by
    by_cases h : q = pid <;>
      simp [lookupProc, updateProc, h, lookupProc_update_self pid f ps]

theorem lookupProc_update_ne {Env : Type} {q pid : Nat} (h : q ≠ pid)
    (f : Proc Env → Proc Env) :
    ∀ ps : List (Nat × Proc Env),
      lookupProc q (updateProc pid f ps) = lookupProc q ps
  | [] => rfl
  | (k, p) :: ps => by
    have hpq : pid ≠ q := Ne.symm h
    by_cases hk : k = pid
    · simp [lookupProc, updateProc, hk, hpq, lookupProc_update_ne h f ps]
    · by_cases hkq : k = q <;>
        simp [lookupProc, updateProc, h, hk, hkq, lookupProc_update_ne h f ps]

theorem lookupProc_append_left {Env : Type} {pid : Nat} {p : Proc Env} (qs : List (Nat × Proc Env)) :
    ∀ {ps : List (Nat × Proc Env)}, lookupProc pid ps = some p →
      lookupProc pid (ps ++ qs) = some p
  | [], h => by cases h
  | (k, p2) :: ps, h => by
    by_cases hk : k = pid
    · simp only [lookupProc, if_pos hk] at h
      simp [lookupProc, hk, h]
    · simp only [lookupProc, if_neg hk] at h
      simp only [List.cons_append, lookupProc, if_neg hk]
      exact lookupProc_append_left qs h

theorem lookupProc_append_right {Env : Type} {pid : Nat} (qs : List (Nat × Proc Env)) :
    ∀ {ps : List (Nat × Proc Env)}, lookupProc pid ps = none →
      lookupProc pid (ps ++ qs) = lookupProc pid qs
  | [], _ => rfl
  | (k, p2) :: ps, h => by
    by_cases hk : k = pid
    · simp [lookupProc, hk] at h
    · simp only [lookupProc, if_neg hk] at h
      simp only [List.cons_append, lookupProc, if_neg hk]
      exact lookupProc_append_right qs h

theorem lookupProc_append_inv {Env : Type} {pid : Nat} {p : Proc Env} :
    ∀ {ps qs : List (Nat × Proc Env)}, lookupProc pid (ps ++ qs) = some p →
      lookupProc pid ps = some p ∨
        (lookupProc pid ps = none ∧ lookupProc pid qs = some p)
  | [], qs, h => Or.inr ⟨rfl, h⟩
  | (k, p2) :: ps, qs, h => by
    by_cases hk : k = pid
    · left
      simp only [List.cons_append, lookupProc, if_pos hk] at h
      simp only [lookupProc, if_pos hk]
      exact h
    · simp only [List.cons_append, lookupProc, if_neg hk] at h
      simp only [lookupProc, if_neg hk]
      exact lookupProc_append_inv h

theorem lookupProc_eq_none_of_lt {Env : Type} {n : Nat} :
    ∀ {ps : List (Nat × Proc Env)}, (∀ q ∈ pidsOf ps, q < n) → lookupProc n ps = none
  | [], _ => rfl
  | (k, p) :: ps, h => by
    have hk : k < n := h k (by simp [pidsOf])
    have hrest : ∀ q ∈ pidsOf ps, q < n := fun q hq => h q (by simp [pidsOf] at hq ⊢; exact Or.inr hq)
    simp [lookupProc, Nat.ne_of_lt hk, lookupProc_eq_none_of_lt hrest]

theorem mem_pidsOf_of_lookup {Env : Type} {q : Nat} {p : Proc Env} :
    ∀ {ps : List (Nat × Proc Env)}, lookupProc q ps = some p → q ∈ pidsOf ps
  | [], h => by cases h
  | (k, p2) :: ps, h => by
    by_cases hk : k = q
    · simp [pidsOf, hk]
    · rw [lookupProc, if_neg hk] at h
      simp [pidsOf]
      exact Or.inr (by simpa [pidsOf] using mem_pidsOf_of_lookup h)

theorem lookup_of_mem_nodup {Env : Type} {q : Nat} {p : Proc Env} :
    ∀ {ps : List (Nat × Proc Env)}, (pidsOf ps).Nodup → (q, p) ∈ ps →
      lookupProc q ps = some p
  | [], _, hm => by cases hm
  | (k, p2) :: ps, hnd, hm => by
    rw [List.mem_cons] at hm
    rcases hm with he | hm
    · rw [Prod.mk.injEq] at he
      simp [lookupProc, he.1, he.2]
    · have hq : q ∈ pidsOf ps := by
        simp only [pidsOf]
        exact List.mem_map_of_mem Prod.fst hm
      have hk : k ≠ q := by
        intro hkq
        rw [pidsOf, List.map_cons, List.nodup_cons] at hnd
        exact hnd.1 (hkq ▸ hq)
      rw [lookupProc, if_neg hk]
      exact lookup_of_mem_nodup
        (by rw [pidsOf, List.map_cons, List.nodup_cons] at hnd; exact hnd.2) hm

theorem pidsOf_update {Env : Type} (pid : Nat) (f : Proc Env → Proc Env) :
    ∀ ps : List (Nat × Proc Env), pidsOf (updateProc pid f ps) = pidsOf ps
  | [] => rfl
  | (k, p) :: ps => by
    by_cases hk : k = pid <;> simp [updateProc, pidsOf, hk] <;>
      simpa [pidsOf] using pidsOf_update pid f ps

theorem pidsOf_append {Env : Type} (ps qs : List (Nat × Proc Env)) :
    pidsOf (ps ++ qs) = pidsOf ps ++ pidsOf qs := by
  simp [pidsOf]

theorem setStatus_setStatus {Env : Type} (st : PStatus) (p : Proc Env) :
    setStatus st (setStatus st p) = setStatus st p := rfl

theorem lookupProc_killAll {Env : Type} :
    ∀ (pids : List Nat) (ps : List (Nat × Proc Env)) (q : Nat),
      lookupProc q (killAll pids ps) =
        if q ∈ pids then (lookupProc q ps).map (setStatus PStatus.killed)
        else lookupProc q ps
  | [], ps, q => by simp [killAll]
  | cp :: pids, ps, q => by
    have ih := lookupProc_killAll pids (updateProc cp (setStatus PStatus.killed) ps) q
    rw [killAll] at ih ⊢
    rw [List.foldl_cons, ih]
    by_cases hq : q ∈ pids
    · rw [if_pos hq, if_pos (by simp [hq])]
      by_cases hqc : q = cp
      · rw [hqc, lookupProc_update_self]
        cases lookupProc cp ps <;> simp [setStatus_setStatus]
      · rw [lookupProc_update_ne hqc]
    · by_cases hqc : q = cp
      · rw [if_neg hq, hqc, lookupProc_update_self, if_pos (by simp)]
      · rw [if_neg hq, lookupProc_update_ne hqc, if_neg (by simp [hq, hqc])]

theorem pidsOf_killAll {Env : Type} :
    ∀ (pids : List Nat) (ps : List (Nat × Proc Env)),
      pidsOf (killAll pids ps) = pidsOf ps
  | [], ps => rfl
  | cp :: pids, ps => by
    rw [killAll, List.foldl_cons, ← killAll, pidsOf_killAll pids, pidsOf_update]

theorem nodup_append_singleton {a : Nat} {l : List Nat} (h : l.Nodup) (ha : a ∉ l) :
    (l ++ [a]).Nodup := by
  rw [List.nodup_append]
  refine ⟨h, List.nodup_singleton a, fun x hx hxa => ?_⟩
  rw [List.mem_singleton] at hxa
  exact ha (hxa ▸ hx)

theorem not_mem_append_singleton {a : Nat} {l : List Nat} (h : (l ++ [a]).Nodup) :
    a ∉ l := by
  rw [List.nodup_append] at h
  intro hm
  exact h.2.2 hm (List.mem_singleton_self a)

theorem length_le_one_of_keys {Env : Type} (c : Nat) :
    ∀ l : List (Nat × Proc Env), (l.map Prod.fst).Nodup → (∀ e ∈ l, e.1 = c) →
      l.length ≤ 1
  | [], _, _ => by simp
  | [e], _, _ => by simp
  | e1 :: e2 :: rest, hnd, h => by
    exfalso
    have h1 : e1.1 = c := h e1 (by simp)
    have h2 : e2.1 = c := h e2 (by simp)
    rw [List.map_cons, List.map_cons, List.nodup_cons] at hnd
    exact hnd.1 (by rw [h1, h2]; simp)

theorem eq_dropLast_append_getLast? {α : Type} :
    ∀ {l : List α} {a : α}, l.getLast? = some a → l = l.dropLast ++ [a]
  | [], a, h => by cases h
  | [x], a, h => by
    rw [List.getLast?_singleton, Option.some.injEq] at h
    rw [h]
    rfl
  | x :: y :: ys, a, h => by
    rw [List.getLast?_cons_cons] at h
    have ih := eq_dropLast_append_getLast? h
    rw [List.dropLast_cons₂, List.cons_append, ← ih]

theorem status_setStatus {Env : Type} (st : PStatus) (p : Proc Env) :
    (setStatus st p).status = st := rfl

theorem status_setEnv {Env : Type} (e : Env) (p : Proc Env) :
    (setEnv e p).status = p.status := rfl

theorem exec_cell_inv {Env : Type} {applyCell : String → Env → Option Env} {c : String}
    {s s2 : SysState Env} (h : exec_cell applyCell c s = some s2) :
    ∃ p e2, lookupProc s.current s.procs = some p ∧ p.status = PStatus.running ∧
      applyCell c p.env = some e2 ∧
      s2 = { procs := updateProc s.current (setEnv e2)
               (s.procs ++ [(s.nextPid, { env := p.env, status := PStatus.suspended })]),
             checkpoint_pids := s.checkpoint_pids ++ [s.nextPid],
             current := s.current,
             nextPid := s.nextPid + 1 } := by
  unfold exec_cell at h
  split at h
  · cases h
  · rename_i p hl
    split at h
    · rename_i hr
      split at h
      · rename_i e2 ha
        injection h with h2
        exact ⟨p, e2, hl, hr, ha, h2.symm⟩
      · cases h
    · cases h

theorem undo_ok_inv {Env : Type} {s s2 : SysState Env} (h : undo s = UndoRes.ok s2) :
    ∃ cp pcur psnap, s.checkpoint_pids.getLast? = some cp ∧
      lookupProc s.current s.procs = some pcur ∧ pcur.status = PStatus.running ∧
      lookupProc cp s.procs = some psnap ∧ psnap.status = PStatus.suspended ∧
      s2 = { procs := updateProc cp (setStatus PStatus.running)
               (updateProc s.current (setStatus PStatus.exited) s.procs),
             checkpoint_pids := s.checkpoint_pids.dropLast,
             current := cp,
             nextPid := s.nextPid } := by
  unfold undo at h
  split at h
  · cases h
  · rename_i cp hg
    split at h
    · rename_i pcur psnap hc hs
      split at h
      · rename_i hcond
        injection h with h2
        exact ⟨cp, pcur, psnap, hg, hc, hcond.1, hs, hcond.2, h2.symm⟩
      · cases h
    · cases h

theorem undo_ok_eq {Env : Type} {s : SysState Env} {cp : Nat} {pcur psnap : Proc Env}
    (hg : s.checkpoint_pids.getLast? = some cp)
    (hc : lookupProc s.current s.procs = some pcur) (hr : pcur.status = PStatus.running)
    (hs : lookupProc cp s.procs = some psnap) (hss : psnap.status = PStatus.suspended) :
    undo s = UndoRes.ok
      { procs := updateProc cp (setStatus PStatus.running)
          (updateProc s.current (setStatus PStatus.exited) s.procs),
        checkpoint_pids := s.checkpoint_pids.dropLast,
        current := cp,
        nextPid := s.nextPid } := by
  simp only [undo, hg, hc, hs]
  split
  · rfl
  · rename_i hcon
    exact absurd ⟨hr, hss⟩ hcon

theorem shutdownDriver_some_inv {Env : Type} {s s2 : SysState Env}
    (h : shutdownDriver s = some s2) :
    ∃ p, lookupProc s.current (killAll s.checkpoint_pids s.procs) = some p ∧
      p.status = PStatus.running ∧
      s2 = { s with procs := updateProc s.current (setStatus PStatus.exited)
                      (killAll s.checkpoint_pids s.procs) } := by
  unfold shutdownDriver at h
  split at h
  · rename_i p hl
    split at h
    · rename_i hr
      injection h with h2
      exact ⟨p, hl, hr, h2.symm⟩
    · cases h
  · cases h

theorem step_undo_ok {Env : Type} {applyCell : String → Env → Option Env}
    {s sA : SysState Env} (hstep : step applyCell s Op.undoOp = some sA) :
    undo s = UndoRes.ok sA := by
  revert hstep
  cases hu : undo s with
  | ok t =>
    intro hstep
    simp only [step, hu, Option.some.injEq] at hstep
    rw [hstep]
  | raised e st => intro hstep; simp [step, hu] at hstep
  | hang => intro hstep; simp [step, hu] at hstep

theorem inv_init {Env : Type} (e0 : Env) : Inv (initState e0) := by
  refine ⟨?_, ?_, ?_, ?_, ?_, ?_, ?_⟩
  · simp [initState, pidsOf]
  · simp [initState, pidsOf]
  · exact ⟨{ env := e0, status := PStatus.running }, by simp [initState, lookupProc], rfl⟩
  · intro q p hl hr
    simp only [initState, lookupProc] at hl
    by_cases h1 : 1 = q
    · exact h1.symm
    · rw [if_neg h1] at hl; cases hl
  · simp [initState]
  · simp [initState]
  · simp [initState]

theorem inv_exec {Env : Type} {applyCell : String → Env → Option Env} {c : String}
    {s s2 : SysState Env} (hInv : Inv s) (h : exec_cell applyCell c s = some s2) :
    Inv s2 := by
  obtain ⟨p, e2, hl, hr, ha, hs2⟩ := exec_cell_inv h
  have hcur_lt : s.current < s.nextPid := hInv.keys_lt _ (mem_pidsOf_of_lookup hl)
  have hfresh : lookupProc s.nextPid s.procs = (none : Option (Proc Env)) :=
    lookupProc_eq_none_of_lt hInv.keys_lt
  have hne_cur : s.nextPid ≠ s.current := Nat.ne_of_gt hcur_lt
  have hfresh_mem : s.nextPid ∉ pidsOf s.procs := fun hm =>
    absurd (hInv.keys_lt _ hm) (lt_irrefl _)
  subst hs2
  refine ⟨?_, ?_, ?_, ?_, ?_, ?_, ?_⟩
  · show (pidsOf (updateProc _ _ _)).Nodup
    rw [pidsOf_update, pidsOf_append]
    exact nodup_append_singleton hInv.keys_nodup hfresh_mem
  · intro q hq
    rw [pidsOf_update, pidsOf_append, List.mem_append] at hq
    rcases hq with hq | hq
    · exact Nat.lt_succ_of_lt (hInv.keys_lt q hq)
    · have hqn : q = s.nextPid := by simpa [pidsOf] using hq
      rw [hqn]; exact Nat.lt_succ_self _
  · refine ⟨setEnv e2 p, ?_, hr⟩
    rw [lookupProc_update_self, lookupProc_append_left _ hl]
    rfl
  · intro q pq hq hrun
    by_cases hqc : q = s.current
    · exact hqc
    · rw [lookupProc_update_ne hqc] at hq
      rcases lookupProc_append_inv hq with hq2 | ⟨_, hq2⟩
      · exact hInv.only_current q pq hq2 hrun
      · simp only [lookupProc] at hq2
        by_cases hqn : s.nextPid = q
        · rw [if_pos hqn] at hq2
          injection hq2 with hpq
          rw [← hpq] at hrun
          cases hrun
        · rw [if_neg hqn] at hq2; cases hq2
  · intro cp hcp
    rw [List.mem_append] at hcp
    rcases hcp with hcp | hcp
    · obtain ⟨ps2, hl2, hsusp2⟩ := hInv.stack_susp cp hcp
      have hcpne : cp ≠ s.current := by
        intro he
        rw [he, hl] at hl2
        injection hl2 with he2
        rw [← he2, hr] at hsusp2
        cases hsusp2
      exact ⟨ps2, by rw [lookupProc_update_ne hcpne, lookupProc_append_left _ hl2], hsusp2⟩
    · rw [List.mem_singleton] at hcp
      subst hcp
      refine ⟨{ env := p.env, status := PStatus.suspended }, ?_, rfl⟩
      rw [lookupProc_update_ne hne_cur, lookupProc_append_right _ hfresh]
      simp [lookupProc]
  · exact nodup_append_singleton hInv.stack_nodup
      (fun hm => absurd (hInv.stack_lt _ hm) (lt_irrefl _))
  · intro cp hcp
    rw [List.mem_append] at hcp
    rcases hcp with hcp | hcp
    · exact Nat.lt_succ_of_lt (hInv.stack_lt cp hcp)
    · rw [List.mem_singleton] at hcp; rw [hcp]; exact Nat.lt_succ_self _

theorem inv_undo {Env : Type} {s s2 : SysState Env} (hInv : Inv s)
    (h : undo s = UndoRes.ok s2) : Inv s2 := by
  obtain ⟨cp, pcur, psnap, hg, hc, hr, hs, hss, hs2⟩ := undo_ok_inv h
  have hstack : s.checkpoint_pids = s.checkpoint_pids.dropLast ++ [cp] :=
    eq_dropLast_append_getLast? hg
  have hcp_ne_cur : cp ≠ s.current := by
    intro he
    rw [he, hc] at hs
    injection hs with he2
    rw [← he2, hr] at hss
    cases hss
  have hcp_not_dl : cp ∉ s.checkpoint_pids.dropLast := by
    have hnd := hInv.stack_nodup
    rw [hstack] at hnd
    exact not_mem_append_singleton hnd
  subst hs2
  refine ⟨?_, ?_, ?_, ?_, ?_, ?_, ?_⟩
  · show (pidsOf (updateProc _ _ _)).Nodup
    rw [pidsOf_update, pidsOf_update]
    exact hInv.keys_nodup
  · intro q hq
    rw [pidsOf_update, pidsOf_update] at hq
    exact hInv.keys_lt q hq
  · refine ⟨setStatus PStatus.running psnap, ?_, rfl⟩
    rw [lookupProc_update_self, lookupProc_update_ne hcp_ne_cur, hs]
    rfl
  · intro q pq hq hrun
    by_cases hqcp : q = cp
    · exact hqcp
    · exfalso
      rw [lookupProc_update_ne hqcp] at hq
      by_cases hqc : q = s.current
      · rw [hqc, lookupProc_update_self, hc] at hq
        injection hq with he2
        rw [← he2, status_setStatus] at hrun
        cases hrun
      · rw [lookupProc_update_ne hqc] at hq
        exact hqc (hInv.only_current q pq hq hrun)
  · intro cp2 hcp2
    have hcp2_mem : cp2 ∈ s.checkpoint_pids := by
      rw [hstack]; exact List.mem_append_left _ hcp2
    obtain ⟨ps2, hl2, hsusp2⟩ := hInv.stack_susp cp2 hcp2_mem
    have hne1 : cp2 ≠ cp := fun he => hcp_not_dl (he ▸ hcp2)
    have hne2 : cp2 ≠ s.current := by
      intro he
      rw [he, hc] at hl2
      injection hl2 with he2
      rw [← he2, hr] at hsusp2
      cases hsusp2
    exact ⟨ps2, by rw [lookupProc_update_ne hne1, lookupProc_update_ne hne2]; exact hl2,
      hsusp2⟩
  · have hnd := hInv.stack_nodup
    rw [hstack] at hnd
    exact List.Nodup.of_append_left hnd
  · intro cp2 hcp2
    exact hInv.stack_lt cp2 (by rw [hstack]; exact List.mem_append_left _ hcp2)

theorem norun_shutdown {Env : Type} {s s2 : SysState Env} (hInv : Inv s)
    (h : shutdownDriver s = some s2) : NoRun s2 := by
  obtain ⟨p, hl, hr, hs2⟩ := shutdownDriver_some_inv h
  subst hs2
  constructor
  · show (pidsOf (updateProc _ _ _)).Nodup
    rw [pidsOf_update, pidsOf_killAll]
    exact hInv.keys_nodup
  · intro q pq hq
    by_cases hqc : q = s.current
    · rw [hqc, lookupProc_update_self, hl] at hq
      injection hq with he
      rw [← he, status_setStatus]
      decide
    · rw [lookupProc_update_ne hqc, lookupProc_killAll] at hq
      by_cases hqs : q ∈ s.checkpoint_pids
      · rw [if_pos hqs] at hq
        cases hl0 : lookupProc q s.procs with
        | none => rw [hl0] at hq; cases hq
        | some p0 =>
          rw [hl0] at hq
          injection hq with he
          rw [← he, status_setStatus]
          decide
      · rw [if_neg hqs] at hq
        intro hcon
        exact hqc (hInv.only_current q pq hq hcon)

theorem norun_terminal {Env : Type} {s : SysState Env} (h : NoRun s)
    (applyCell : String → Env → Option Env) (op : Op) :
    step applyCell s op = none := by
  obtain ⟨hnd, hno⟩ := h
  cases op with
  | submit c =>
    show exec_cell applyCell c s = none
    unfold exec_cell
    cases hl : lookupProc s.current s.procs with
    | none => rfl
    | some p =>
      simp only [hl]
      rw [if_neg (hno _ _ hl)]
  | undoOp =>
    cases hu : undo s with
    | raised e st => simp [step, hu]
    | hang => simp [step, hu]
    | ok s2 =>
      exfalso
      obtain ⟨cp, pcur, psnap, hg, hc, hr, hs, hss, _⟩ := undo_ok_inv hu
      exact hno _ _ hc hr
  | shutdownOp =>
    show shutdownDriver s = none
    unfold shutdownDriver
    cases hl : lookupProc s.current (killAll s.checkpoint_pids s.procs) with
    | none => simp [hl]
    | some p =>
      simp only [hl]
      have hpk : p.status ≠ PStatus.running := by
        rw [lookupProc_killAll] at hl
        by_cases hqs : s.current ∈ s.checkpoint_pids
        · rw [if_pos hqs] at hl
          cases hl0 : lookupProc s.current s.procs with
          | none => rw [hl0] at hl; cases hl
          | some p0 =>
            rw [hl0] at hl
            injection hl with he
            rw [← he, status_setStatus]
            decide
        · rw [if_neg hqs] at hl
          exact hno _ _ hl
      rw [if_neg hpk]

theorem norun_runOps {Env : Type} {applyCell : String → Env → Option Env}
    {s s2 : SysState Env} (h : NoRun s) (ops : List Op)
    (hr : runOps applyCell ops s = some s2) : s2 = s := by
  cases ops with
  | nil => injection hr with he; exact he.symm
  | cons op ops =>
    simp only [runOps, norun_terminal h applyCell op] at hr
    cases hr

theorem runOps_reach {Env : Type} (applyCell : String → Env → Option Env) :
    ∀ (ops : List Op) (s s2 : SysState Env), Inv s →
      runOps applyCell ops s = some s2 →
      (Inv s2 ∧ Op.shutdownOp ∉ ops) ∨ (NoRun s2 ∧ Op.shutdownOp ∈ ops)
  | [], s, s2, hInv, h => by
    injection h with he
    exact Or.inl ⟨he ▸ hInv, by simp⟩
  | op :: ops, s, s2, hInv, h => by
    cases hstep : step applyCell s op with
    | none => simp only [runOps, hstep] at h; cases h
    | some sA =>
      simp only [runOps, hstep] at h
      cases op with
      | submit c =>
        have hInvA : Inv sA := inv_exec hInv hstep
        rcases runOps_reach applyCell ops sA s2 hInvA h with ⟨hi, hnm⟩ | ⟨hn, hm⟩
        · exact Or.inl ⟨hi, by simp [hnm]⟩
        · exact Or.inr ⟨hn, List.mem_cons_of_mem _ hm⟩
      | undoOp =>
        have hInvA : Inv sA := inv_undo hInv (step_undo_ok hstep)
        rcases runOps_reach applyCell ops sA s2 hInvA h with ⟨hi, hnm⟩ | ⟨hn, hm⟩
        · exact Or.inl ⟨hi, by simp [hnm]⟩
        · exact Or.inr ⟨hn, List.mem_cons_of_mem _ hm⟩
      | shutdownOp =>
        have hnoA : NoRun sA := norun_shutdown hInv hstep
        have hs2 : s2 = sA := norun_runOps hnoA ops h
        exact Or.inr ⟨hs2 ▸ hnoA, by simp⟩

theorem amor_of_entries {Env : Type} {s : SysState Env}
    (hnd : (pidsOf s.procs).Nodup)
    (h : ∀ e ∈ s.procs, e.2.status = PStatus.running → e.1 = s.current) :
    atMostOneRunning s := by
  unfold atMostOneRunning
  apply length_le_one_of_keys s.current
  · exact List.Nodup.sublist ((List.filter_sublist _).map Prod.fst) hnd
  · intro e he
    rw [List.mem_filter] at he
    have hbe := he.2
    rw [beq_iff_eq] at hbe
    exact h e he.1 hbe

theorem amor_of_inv {Env : Type} {s : SysState Env} (hInv : Inv s) :
    atMostOneRunning s := by
  apply amor_of_entries hInv.keys_nodup
  intro e he hr
  refine hInv.only_current e.1 e.2 ?_ hr
  exact lookup_of_mem_nodup hInv.keys_nodup (by rw [Prod.mk.eta]; exact he)

theorem amor_of_norun {Env : Type} {s : SysState Env} (h : NoRun s) :
    atMostOneRunning s := by
  apply amor_of_entries h.1
  intro e he hr
  exact absurd hr
    (h.2 e.1 e.2 (lookup_of_mem_nodup h.1 (by rw [Prod.mk.eta]; exact he)))

theorem runOps_stack_len {Env : Type} (applyCell : String → Env → Option Env) :
    ∀ (ops : List Op) (s s2 : SysState Env), runOps applyCell ops s = some s2 →
      s2.checkpoint_pids.length + countUndos ops =
        s.checkpoint_pids.length + countSubmits ops
  | [], s, s2, h => by
    injection h with he
    rw [← he]
    simp [countUndos, countSubmits]
  | op :: ops, s, s2, h => by
    cases hstep : step applyCell s op with
    | none => simp only [runOps, hstep] at h; cases h
    | some sA =>
      simp only [runOps, hstep] at h
      have ih := runOps_stack_len applyCell ops sA s2 h
      cases op with
      | submit c =>
        obtain ⟨p, e2, hl, hr, ha, hsA⟩ := exec_cell_inv hstep
        rw [hsA] at ih
        simp only [List.length_append, List.length_singleton] at ih
        simp only [countSubmits, countUndos]
        omega
      | undoOp =>
        obtain ⟨cp, pcur, psnap, hg, hc, hr, hs, hss, hsA⟩ :=
          undo_ok_inv (step_undo_ok hstep)
        have hlen : s.checkpoint_pids.length = s.checkpoint_pids.dropLast.length + 1 := by
          conv_lhs => rw [eq_dropLast_append_getLast? hg]
          simp
        rw [hsA] at ih
        simp only at ih
        simp only [countSubmits, countUndos]
        omega
      | shutdownOp =>
        obtain ⟨p, hl, hr, hsA⟩ := shutdownDriver_some_inv hstep
        rw [hsA] at ih
        simp only at ih
        simp only [countSubmits, countUndos]
        omega

theorem runOps_append {Env : Type} (applyCell : String → Env → Option Env) :
    ∀ (l1 l2 : List Op) (s : SysState Env),
      runOps applyCell (l1 ++ l2) s =
        match runOps applyCell l1 s with
        | some t => runOps applyCell l2 t
        | none => none
  | [], l2, s => rfl
  | op :: l1, l2, s => by
    cases hstep : step applyCell s op with
    | none => simp [runOps, hstep]
    | some sA =>
      simp only [List.cons_append, runOps, hstep]
      exact runOps_append applyCell l1 l2 sA

theorem submits_then_undos {Env : Type} (applyCell : String → Env → Option Env) :
    ∀ (cells : List String) (s s1 : SysState Env), Inv s →
      runOps applyCell (cells.map Op.submit) s = some s1 →
      ∃ s2, runOps applyCell (List.replicate cells.length Op.undoOp) s1 = some s2 ∧
        envOf s2 = envOf s ∧
        s2.checkpoint_pids = s.checkpoint_pids ∧
        (∀ cp ∈ s.checkpoint_pids, lookupProc cp s2.procs = lookupProc cp s.procs) ∧
        Inv s2
  | [], s, s1, hInv, h => by
    injection h with he
    subst he
    exact ⟨s, rfl, rfl, rfl, fun _ _ => rfl, hInv⟩
  | c :: cs, s, s1, hInv, h => by
    cases hstep : step applyCell s (Op.submit c) with
    | none => simp only [List.map_cons, runOps, hstep] at h; cases h
    | some sA =>
      simp only [List.map_cons, runOps, hstep] at h
      have hInvA : Inv sA := inv_exec hInv hstep
      obtain ⟨s2, hrun2, henv2, hstack2, hlook2, hInv2⟩ :=
        submits_then_undos applyCell cs sA s1 hInvA h
      obtain ⟨p, e2, hl, hr, ha, hsA⟩ := exec_cell_inv hstep
      have hfresh : lookupProc s.nextPid s.procs = (none : Option (Proc Env)) :=
        lookupProc_eq_none_of_lt hInv.keys_lt
      have hcur_lt : s.current < s.nextPid := hInv.keys_lt _ (mem_pidsOf_of_lookup hl)
      have hne_cur : s.nextPid ≠ s.current := Nat.ne_of_gt hcur_lt
      have hstackA : sA.checkpoint_pids = s.checkpoint_pids ++ [s.nextPid] := by
        rw [hsA]
      have hchildA : lookupProc s.nextPid sA.procs =
          some { env := p.env, status := PStatus.suspended } := by
        rw [hsA]
        show lookupProc s.nextPid (updateProc _ _ _) = _
        rw [lookupProc_update_ne hne_cur, lookupProc_append_right _ hfresh]
        simp [lookupProc]
      have holdA : ∀ cp ∈ s.checkpoint_pids,
          lookupProc cp sA.procs = lookupProc cp s.procs := by
        intro cp hcp
        obtain ⟨psusp, hlcp, hsusp⟩ := hInv.stack_susp cp hcp
        have hne_c : cp ≠ s.current := by
          intro he
          rw [he, hl] at hlcp
          injection hlcp with he2
          rw [← he2, hr] at hsusp
          cases hsusp
        rw [hsA]
        show lookupProc cp (updateProc _ _ _) = _
        rw [lookupProc_update_ne hne_c, lookupProc_append_left _ hlcp, hlcp]
      have hgl : s2.checkpoint_pids.getLast? = some s.nextPid := by
        rw [hstack2, hstackA]
        exact List.getLast?_concat _
      obtain ⟨pcur2, hc2, hr2⟩ := hInv2.current_run
      have hmA : s.nextPid ∈ sA.checkpoint_pids := by
        rw [hstackA]
        exact List.mem_append_right _ (by simp)
      have hsnap2 : lookupProc s.nextPid s2.procs =
          some { env := p.env, status := PStatus.suspended } := by
        rw [hlook2 s.nextPid hmA, hchildA]
      have hok := undo_ok_eq hgl hc2 hr2 hsnap2 rfl
      have hne3 : s.nextPid ≠ s2.current := by
        intro he
        rw [he, hc2] at hsnap2
        injection hsnap2 with he2
        rw [he2] at hr2
        simp at hr2
      refine ⟨{ procs := updateProc s.nextPid (setStatus PStatus.running)
                  (updateProc s2.current (setStatus PStatus.exited) s2.procs),
                checkpoint_pids := s2.checkpoint_pids.dropLast,
                current := s.nextPid,
                nextPid := s2.nextPid }, ?_, ?_, ?_, ?_, ?_⟩
      · rw [List.length_cons, List.replicate_succ', runOps_append applyCell _ _ s1,
          hrun2]
        simp only [runOps, step, hok]
      · unfold envOf
        show (lookupProc s.nextPid (updateProc _ _ _)).map Proc.env = _
        rw [lookupProc_update_self, lookupProc_update_ne hne3, hsnap2, hl]
        rfl
      · show s2.checkpoint_pids.dropLast = s.checkpoint_pids
        rw [hstack2, hstackA]
        exact List.dropLast_concat
      · intro cp hcp
        have hne_n : cp ≠ s.nextPid := Nat.ne_of_lt (hInv.stack_lt cp hcp)
        have hmA2 : cp ∈ sA.checkpoint_pids := by
          rw [hstackA]
          exact List.mem_append_left _ hcp
        have hs2cp : lookupProc cp s2.procs = lookupProc cp s.procs := by
          rw [hlook2 cp hmA2, holdA cp hcp]
        obtain ⟨psusp, hlcp, hsusp⟩ := hInv.stack_susp cp hcp
        have hne_c2 : cp ≠ s2.current := by
          intro he
          have h1 : lookupProc s2.current s2.procs = some psusp := by
            rw [← he, hs2cp, hlcp]
          rw [hc2] at h1
          injection h1 with he2
          rw [← he2, hr2] at hsusp
          cases hsusp
        show lookupProc cp (updateProc _ _ _) = _
        rw [lookupProc_update_ne hne_n, lookupProc_update_ne hne_c2, hs2cp]
      · exact inv_undo hInv2 hok

/-- C1: for every sequence of N submit (`exec_cell`) operations from session
start, all of which complete, performing `undo()` N times succeeds and
returns the current Kernel's environment (its `local_env` and `global_env`,
modelled together as `Env`) to its pre-first-submit value, bit-for-bit. -/
theorem undo_n_times_restores_env {Env : Type}
    (applyCell : String → Env → Option Env) (e0 : Env) (cells : List String)
    (s1 : SysState Env)
    (h : runOps applyCell (cells.map Op.submit) (initState e0) = some s1) :
    ∃ s2, runOps applyCell (List.replicate cells.length Op.undoOp) s1 = some s2 ∧
      envOf s2 = some e0 := by
  obtain ⟨s2, hrun, henv, _, _, _⟩ :=
    submits_then_undos applyCell cells (initState e0) s1 (inv_init e0) h
  refine ⟨s2, hrun, ?_⟩
  rw [henv]
  simp [envOf, initState, lookupProc]

/-- C1, witness: two submits from the start state, then two undos, restore
the counter environment to 0. -/
theorem undo_n_times_restores_env_witness :
    ∃ s2, runOps applySucc (List.replicate 2 Op.undoOp) stTwoSubmits = some s2 ∧
      envOf s2 = some 0 :=
  undo_n_times_restores_env applySucc 0 ["a", "b"] stTwoSubmits (by decide)

/-- C2, amended: in every state reachable by any sequence of submit, undo and
shutdown operations, at most one Worker process is in Running state; and in
every state reached without a shutdown, every pid on the undo stack refers to
a Suspended process, which does not read from the channel.  (After a
shutdown the stack's pids refer to SIGKILLed processes, see the
counterexample.) -/
theorem reachable_one_running_stack_suspended {Env : Type}
    (applyCell : String → Env → Option Env) (e0 : Env) (ops : List Op)
    (s : SysState Env) (h : runOps applyCell ops (initState e0) = some s) :
    atMostOneRunning s ∧
    (Op.shutdownOp ∉ ops → stackSuspended s ∧
      ∀ cp ∈ s.checkpoint_pids, (statusOf s cp).map readsChannel = some false) := by
  rcases runOps_reach applyCell ops (initState e0) s (inv_init e0) h with
    ⟨hi, _⟩ | ⟨hn, hm⟩
  · refine ⟨amor_of_inv hi, fun _ => ⟨?_, ?_⟩⟩
    · intro cp hcp
      obtain ⟨p, hl, hsusp⟩ := hi.stack_susp cp hcp
      simp [statusOf, hl, hsusp]
    · intro cp hcp
      obtain ⟨p, hl, hsusp⟩ := hi.stack_susp cp hcp
      simp [statusOf, hl, hsusp, readsChannel]
  · exact ⟨amor_of_norun hn, fun hns => absurd hm hns⟩

/-- C2, witness for the amended theorem: the state after one submit and one
undo. -/
theorem reachable_one_running_stack_suspended_witness :
    atMostOneRunning stAfterUndo ∧
    (Op.shutdownOp ∉ [Op.submit "x = 1", Op.undoOp] → stackSuspended stAfterUndo ∧
      ∀ cp ∈ stAfterUndo.checkpoint_pids,
        (statusOf stAfterUndo cp).map readsChannel = some false) :=
  reachable_one_running_stack_suspended applySucc 0 [Op.submit "x = 1", Op.undoOp]
    stAfterUndo (by decide)

/-- C5: after any successfully completed sequence of front-end operations
containing N submits of which M have been undone, `checkpoint_pids` has
length N - M: each submit appends exactly one snapshot pid and each
successful undo pops exactly one. -/
theorem stack_length_eq_submits_minus_undos {Env : Type}
    (applyCell : String → Env → Option Env) (e0 : Env) (ops : List Op)
    (s : SysState Env) (h : runOps applyCell ops (initState e0) = some s) :
    countUndos ops ≤ countSubmits ops ∧
    s.checkpoint_pids.length = countSubmits ops - countUndos ops := by
  have hlen := runOps_stack_len applyCell ops (initState e0) s h
  simp only [initState, List.length_nil] at hlen
  constructor <;> omega

/-- C5, witness: two submits and one undo leave one pid on the stack. -/
theorem stack_length_eq_submits_minus_undos_witness :
    countUndos [Op.submit "a", Op.submit "b", Op.undoOp] ≤
      countSubmits [Op.submit "a", Op.submit "b", Op.undoOp] ∧
    stAfterTwoSubmitsOneUndo.checkpoint_pids.length =
      countSubmits [Op.submit "a", Op.submit "b", Op.undoOp] -
        countUndos [Op.submit "a", Op.submit "b", Op.undoOp] :=
  stack_length_eq_submits_minus_undos applySucc 0
    [Op.submit "a", Op.submit "b", Op.undoOp] stAfterTwoSubmitsOneUndo (by decide)

/-- C3: the forked child installs its SIGCONT handler and only then calls
`signal.pause()`, with SIGCONT unmasked the whole time (no mask is set before
`os.fork()`), so the resume signal IS deliverable before the signal-wait is in
place.  If the Driver's SIGCONT arrives before `signal.signal` runs, or
between `signal.signal` and `signal.pause`, it is consumed without effect and
the child sleeps in `pause()` forever; only delivery during `pause()` wakes
it.  This refutes the claim that the construction cannot lose the wakeup. -/
theorem sigcont_race_lost_wakeup :
    childBlockedForever [ChildEv.installHandler, ChildEv.sigcont, ChildEv.enterPause] = true ∧
    childBlockedForever [ChildEv.sigcont, ChildEv.installHandler, ChildEv.enterPause] = true ∧
    childBlockedForever [ChildEv.installHandler, ChildEv.enterPause, ChildEv.sigcont] = false := by
  decide

/-- C4: `Driver.undo` sends `Shutdown`, receives the `Ack`, reassigns
`kernel_client.kernel_pid` and sends SIGCONT, but never calls
`waitpid`/`join`, so the exited Kernel stays a zombie (status `exited`, never
`reaped`); likewise `Driver.shutdown` SIGKILLs every snapshot without reaping
it.  Explicit termination is therefore not paired with reclamation. -/
theorem undo_leaves_zombie_unreaped :
    runOps applySucc [Op.submit "x = 1", Op.undoOp] st0 = some stAfterUndo ∧
    statusOf stAfterUndo 1 = some PStatus.exited ∧
    PStatus.exited ≠ PStatus.reaped ∧
    runOps applySucc [Op.submit "x = 1", Op.shutdownOp] st0 = some stAfterShut ∧
    statusOf stAfterShut 2 = some PStatus.killed ∧
    PStatus.killed ≠ PStatus.reaped := by
  decide

/-- C2, counterexample to the claim as stated: the state reached by
`exec_cell("x = 1")` followed by `shutdown()` still lists pid 2 on
`checkpoint_pids`, but that process was SIGKILLed and is no longer
Suspended. -/
theorem shutdown_leaves_stack_unsuspended :
    runOps applySucc [Op.submit "x = 1", Op.shutdownOp] st0 = some stAfterShut ∧
    ¬ stackSuspended stAfterShut := by
  decide

/-- C6, counterexample to the claim as stated: on `CellInput` the Kernel does
send a response (`Ack`, in `Kernel.run`), so the request is not
fire-and-forget. -/
theorem cellinput_sends_ack_not_nothing :
    kernelHandle applySucc 5 (KernelMessage.CellInput "x = 1") 0
      = (1, [DriverMessage.Ack], KAction.continueLoop) ∧
    ([DriverMessage.Ack] : List DriverMessage) ≠ [] := by
  decide

/-- C6, amended: on a successfully executed `CellInput` the Kernel replies
`Ack` and the Driver's `send_message` blocks for and consumes it; the
`has_response` flag of `CellInput` is declared `False` but is never consulted
by any caller. -/
theorem cellinput_acked_and_driver_waits {Env : Type}
    (applyCell : String → Env → Option Env) (fresh : Nat) (c : String)
    (env e2 : Env) (h : applyCell c env = some e2) :
    send_message applyCell fresh (KernelMessage.CellInput c) env
      = some (e2, DriverMessage.Ack, KAction.continueLoop) ∧
    has_response (KernelMessage.CellInput c) = false := by
  exact ⟨by simp [send_message, kernelHandle, h], rfl⟩

/-- C6, witness for the amended theorem at a concrete input. -/
theorem cellinput_acked_and_driver_waits_witness :
    send_message applySucc 5 (KernelMessage.CellInput "x = 1") 0
      = some (1, DriverMessage.Ack, KAction.continueLoop) ∧
    has_response (KernelMessage.CellInput "x = 1") = false :=
  cellinput_acked_and_driver_waits applySucc 5 "x = 1" 0 1 rfl

/-- C7, counterexample to the claim as stated: the Kernel's reply to
`Shutdown` is the generic `Ack` (the very same message class used to
acknowledge `CellInput`), not a distinct `ShutdownAcknowledged` response
kind. -/
theorem shutdown_reply_is_generic_ack :
    send_message applySucc 5 KernelMessage.Shutdown 0
      = some (0, DriverMessage.Ack, KAction.exitZero) ∧
    DriverMessage.Ack ≠ DriverMessage.ShutdownAcknowledged := by
  decide

/-- C7, amended: on `Shutdown` the Kernel replies `Ack` and then exits the
process via `sys.exit(0)`. -/
theorem shutdown_replies_ack_then_exits {Env : Type}
    (applyCell : String → Env → Option Env) (fresh : Nat) (env : Env) :
    send_message applyCell fresh KernelMessage.Shutdown env
      = some (env, DriverMessage.Ack, KAction.exitZero) :=
  rfl

/-- C8: `Kernel.next` has no error handling, so a cell whose execution raises
kills the Kernel process with an unhandled exception before any response is
sent; the Driver, blocked in the unconditional `recv()` of `send_message`
inside `exec_cell`, waits forever.  The failure is not surfaced as output and
no subsequent `undo()` can ever run. -/
theorem failing_cell_crashes_kernel_silently :
    kernelHandle applyFails 5 (KernelMessage.CellInput "y") 0
      = (0, [], KAction.crash) ∧
    send_message applyFails 5 (KernelMessage.CellInput "y") 0 = none ∧
    exec_cell applyFails "y" st0 = none := by
  decide

/-- C9: `undo()` on an empty `checkpoint_pids` executes
`raise Error("Nothing to undo.")`, but `Error` is an undefined name, so the
call fails with a NameError for `Error` rather than the intended
`EmptyHistory`-style error; the session state is left unchanged. -/
theorem undo_empty_raises_nameerror :
    undo st0 = UndoRes.raised (PyErr.nameErrorUndefined "Error") st0 ∧
    PyErr.nameErrorUndefined "Error" ≠ PyErr.emptyHistory "Nothing to undo." := by
  decide

/-- C10, counterexample to the claim as stated: a line with surrounding
whitespace is passed to `exec_cell` in stripped form, not unchanged. -/
theorem repl_line_stripped_before_exec :
    replStep " x = 1" = ReplAction.execCmd "x = 1" ∧
    ReplAction.execCmd "x = 1" ≠ ReplAction.execCmd " x = 1" := by
  decide

/-- C10, amended: if the stripped line equals `_UNDO_REPL_TOKEN` then `undo()`
is invoked and nothing is submitted for execution; every other line is passed
to `exec_cell` in its stripped form. -/
theorem repl_token_undo_else_exec_stripped (line : String) :
    (pyStrip line = undoReplToken → replStep line = ReplAction.undoCmd) ∧
    (pyStrip line ≠ undoReplToken → replStep line = ReplAction.execCmd (pyStrip line)) := by
  refine ⟨fun h => ?_, fun h => ?_⟩
  · simp [replStep, h]
  · simp [replStep, beq_iff_eq, h]

/-- C10, witness for the amended theorem at concrete inputs. -/
theorem repl_token_undo_else_exec_stripped_witness :
    replStep "  !!  " = ReplAction.undoCmd ∧
    replStep " x = 1" = ReplAction.execCmd "x = 1" := by
  have h1 := (repl_token_undo_else_exec_stripped "  !!  ").1 (by decide)
  have h2 := (repl_token_undo_else_exec_stripped " x = 1").2 (by decide)
  have e : pyStrip " x = 1" = "x = 1" := by decide
  rw [e] at h2
  exact ⟨h1, h2⟩

end ForkingInterpreters
